import Mathlib

/-!
# Verification of the RPA task-automation core (`src/plugins/rpa_plugin.py`)

A shallow embedding of the in-memory task registry and the Playwright-driven
run controller of `rpa_plugin.py`.  Python dicts become association lists
(insertion-ordered, like Python dicts), HTTP exceptions become `Except`
values, and the external browser (Playwright) becomes an environment record
`Env` whose primitives are indexed by a call counter, so that the outcome of
each external call may depend on the whole history of the run.  Raised
Python exceptions are modelled as `Except.error` carrying `str(e)`.
-/

set_option autoImplicit false

namespace RPA

/-! ## Python dicts as insertion-ordered association lists -/

/-- `d[key]` lookup on a Python dict modelled as an association list. -/
def dlookup {α : Type} : List (String × α) → String → Option α
  | [], _ => none
  | (k, v) :: rest, key => if k = key then some v else dlookup rest key

/-- `d[key] = v` on a Python dict: overwrite in place if the key is present,
otherwise append at the end (Python dicts preserve insertion order). -/
def dinsert {α : Type} : List (String × α) → String → α → List (String × α)
  | [], key, v => [(key, v)]
  | (k, w) :: rest, key, v =>
    if k = key then (k, v) :: rest else (k, w) :: dinsert rest key v

/-- `key in d` on a Python dict. -/
def dmem {α : Type} (d : List (String × α)) (key : String) : Bool :=
  (dlookup d key).isSome

/-! ## Decimal rendering of naturals, modelling Python f-string `{n}` -/

/-- The character for one decimal digit (`'0'` .. `'9'`). -/
def digitChar (d : Nat) : Char := Char.ofNat (48 + d)

/-- Little-endian decimal digits, with structural fuel (any fuel at least
the number itself is enough, since `n / 10 < n` for `n ≥ 10`). -/
def decDigitsAux : Nat → Nat → List Nat
  | 0, n => [n % 10]
  | fuel + 1, n => if n < 10 then [n] else (n % 10) :: decDigitsAux fuel (n / 10)

/-- Little-endian decimal digits of a natural number. -/
def decDigits (n : Nat) : List Nat := decDigitsAux n n

/-- Decimal rendering of a natural number, the model of Python's
f-string interpolation of an `int`. -/
def natDecimal (n : Nat) : String := String.mk ((decDigits n).reverse.map digitChar)

/-- The task identifier `f"task_{n}"` assigned when `n - 1` tasks are
already stored. -/
def taskKey (n : Nat) : String := "task_" ++ natDecimal n

/-- `str(KeyError(k))` in Python renders as the key surrounded by single
quotes; this is the message carried when a required dict key is missing. -/
def keyError (k : String) : String := "'" ++ k ++ "'"

/-! ## Data model (the pydantic models of lines 11-28) -/

/-- One extracted step payload, the value stored under a step dict's
`"result"` key by the screenshot / extract branches (lines 175, 182, 190). -/
inductive StepResult : Type where
  | screenshot (encoded : String)
  | text (t : String)
  | texts (ts : List String)
deriving Repr, DecidableEq

/-- One step dict of `TaskConfig.steps` (`Dict[str, Any]`): the keys the
interpreter of `run_automation` reads, each optional, plus the `"result"`
key the interpreter may attach.  `coordinates` is the two-element sequence
unpacked at line 155; `time` is the sleep duration of line 166. -/
structure Step : Type where
  type : Option String := none
  url : Option String := none
  selector : Option String := none
  coordinates : Option (Int × Int) := none
  text : Option String := none
  value : Option String := none
  time : Option Nat := none
  xpath : Option String := none
  result : Option StepResult := none
deriving Repr, DecidableEq

/-- A step with its `"result"` key removed: the part of a step dict that the
run controller never writes. -/
def stripResult (s : Step) : Step := { s with result := none }

/-- The `TaskConfig` pydantic model (lines 11-16).  The `schedule` dict is
opaque metadata, modelled as an association list of strings. -/
structure TaskConfig : Type where
  name : String
  description : String
  target_url : Option String := none
  steps : List Step
  schedule : Option (List (String × String)) := none
deriving Repr, DecidableEq

/-- The dict stored into the module-level `results` registry by
`run_automation`: on success `{"result": {"steps": ...}}` (no `"error"`
key), on a caught exception `{"error": str(e)}` (no `"result"` key). -/
structure ResultPayload : Type where
  steps : List Step
deriving Repr, DecidableEq

structure StoredEntry : Type where
  result : Option ResultPayload := none
  error : Option String := none
deriving Repr, DecidableEq

/-- A raised `HTTPException`. -/
structure HTTPError : Type where
  status_code : Nat
  detail : String
deriving Repr, DecidableEq

/-- Decidable equality of handler outcomes, so that concrete scenarios
can be settled by `decide`. -/
instance {ε α : Type} [DecidableEq ε] [DecidableEq α] :
    DecidableEq (Except ε α) := fun x y =>
  match x, y with
  | .error a, .error b =>
    if h : a = b then isTrue (by rw [h])
    else isFalse (by intro hh; cases hh; exact h rfl)
  | .ok a, .ok b =>
    if h : a = b then isTrue (by rw [h])
    else isFalse (by intro hh; cases hh; exact h rfl)
  | .error _, .ok _ => isFalse (by intro hh; cases hh)
  | .ok _, .error _ => isFalse (by intro hh; cases hh)

/-- The Python float literal `0.5` as an exact rational. -/
def half : Rat := ⟨1, 2, by decide, by decide⟩

/-- The `TaskStatus` response model (lines 24-28).  The Python float
literals `0.0`, `0.5`, `1.0` are exactly representable and never operated
on, so they are modelled in `ℚ`. -/
structure TaskStatusResp : Type where
  task_id : String
  status : String
  progress : Option Rat := none
  message : Option String := none
deriving Repr, DecidableEq

/-- The `TaskResult` response model (lines 18-22). -/
structure TaskResultResp : Type where
  task_id : String
  status : String
  result : Option ResultPayload := none
  error : Option String := none
deriving Repr, DecidableEq

/-- The module-level mutable state: the `tasks` and `results` dicts
(lines 38-39). -/
structure PluginState : Type where
  tasks : List (String × TaskConfig)
  results : List (String × StoredEntry)
deriving Repr, DecidableEq

/-- The state at process start: both dicts empty. -/
def initState : PluginState := ⟨[], []⟩

/-! ## The external browser (Playwright) as an environment

Every awaited Playwright call of `run_automation` is one primitive of
`Env`, fed the index of the call within the run (a counter threaded
through the run), so the outcome of a call may depend on the whole
history.  A primitive returning `Except.error e` models the call raising
an exception whose `str` is `e`.  Element handles are opaque naturals.
`screenshot` returns the base64-encoded text of the captured bytes (the
pure `base64.b64encode(..).decode('utf-8')` of lines 174 is absorbed into
the environment's answer). -/
structure Env : Type where
  launch : Nat → Except String Unit
  newContext : Nat → Except String Unit
  newPage : Nat → Except String Unit
  goto : Nat → String → Except String Unit
  click : Nat → String → Except String Unit
  clickCoords : Nat → Int → Int → Except String Unit
  fill : Nat → String → String → Except String Unit
  selectOption : Nat → String → Option String → Except String Unit
  sleep : Nat → Nat → Except String Unit
  waitForSelector : Nat → String → Except String Unit
  screenshot : Nat → Except String String
  querySelector : Nat → String → Except String (Option Nat)
  textContent : Nat → Nat → Except String String
  xpathQuery : Nat → String → Except String (List Nat)
  closeBrowser : Nat → Except String Unit

/-! ## The step interpreter (the loop body of lines 145-190) -/

/-- The `text_content` loop of lines 186-189: read the text of each handle
in order, failing as soon as one call raises. -/
def collectTexts (env : Env) : Nat → List Nat → Except String (List String × Nat)
  | k, [] => .ok ([], k)
  | k, h :: hs =>
    match env.textContent k h with
    | .error e => .error e
    | .ok t =>
      match collectTexts env (k + 1) hs with
      | .error e => .error e
      | .ok (ts, k') => .ok (t :: ts, k')

/-- One iteration of the `for step in task["steps"]` loop
(lines 145-190).  Returns the payload the branch stores into the step
dict's `"result"` key (`none` when the branch stores nothing) and the
next call counter.  A `step["key"]` subscript on a missing key raises
`KeyError`, carried as `keyError "key"`; a step whose `"type"` matches no
`elif` arm (or is absent) falls through the chain and does nothing. -/
def execStepCore (env : Env) (k : Nat) (s : Step) :
    Except String (Option StepResult × Nat) :=
  match s.type with
  | some "navigate" =>
    -- line 149: `await page.goto(step["url"])`
    match s.url with
    | none => .error (keyError "url")
    | some u =>
      match env.goto k u with
      | .error e => .error e
      | .ok _ => .ok (none, k + 1)
  | some "click" =>
    -- lines 152-156: selector click, else coordinate click, else nothing
    match s.selector with
    | some sel =>
      match env.click k sel with
      | .error e => .error e
      | .ok _ => .ok (none, k + 1)
    | none =>
      match s.coordinates with
      | some (x, y) =>
        match env.clickCoords k x y with
        | .error e => .error e
        | .ok _ => .ok (none, k + 1)
      | none => .ok (none, k)
  | some "type" =>
    -- line 159: `await page.fill(step["selector"], step["text"])`
    match s.selector with
    | none => .error (keyError "selector")
    | some sel =>
      match s.text with
      | none => .error (keyError "text")
      | some txt =>
        match env.fill k sel txt with
        | .error e => .error e
        | .ok _ => .ok (none, k + 1)
  | some "select" =>
    -- line 162: `select_option(step["selector"], value=step.get("value"))`
    match s.selector with
    | none => .error (keyError "selector")
    | some sel =>
      match env.selectOption k sel s.value with
      | .error e => .error e
      | .ok _ => .ok (none, k + 1)
  | some "wait" =>
    -- lines 165-168: sleep a duration, else wait for a selector, else nothing
    match s.time with
    | some t =>
      match env.sleep k t with
      | .error e => .error e
      | .ok _ => .ok (none, k + 1)
    | none =>
      match s.selector with
      | some sel =>
        match env.waitForSelector k sel with
        | .error e => .error e
        | .ok _ => .ok (none, k + 1)
      | none => .ok (none, k)
  | some "screenshot" =>
    -- lines 171-175: capture, encode, store under "result"
    match env.screenshot k with
    | .error e => .error e
    | .ok data => .ok (some (.screenshot data), k + 1)
  | some "extract" =>
    -- lines 178-190: selector branch, else xpath branch, else nothing;
    -- zero matches store nothing and raise nothing
    match s.selector with
    | some sel =>
      match env.querySelector k sel with
      | .error e => .error e
      | .ok none => .ok (none, k + 1)
      | .ok (some h) =>
        match env.textContent (k + 1) h with
        | .error e => .error e
        | .ok t => .ok (some (.text t), k + 2)
    | none =>
      match s.xpath with
      | some xp =>
        match env.xpathQuery k xp with
        | .error e => .error e
        | .ok [] => .ok (none, k + 1)
        | .ok hs =>
          match collectTexts env (k + 1) hs with
          | .error e => .error e
          | .ok (ts, k') => .ok (some (.texts ts), k')
      | none => .ok (none, k)
  | some _ => .ok (none, k)
  | none => .ok (none, k)

/-- Outcome of executing one step: the (possibly mutated) step dict and
the next call counter, or the message of the raised exception. -/
inductive StepOut : Type where
  | ok (s' : Step) (k' : Nat)
  | fail (e : String)
deriving Repr, DecidableEq

/-- Execute one step: on success the step dict either gains a `"result"`
key (`step["result"] = ...`, lines 175/182/190) or is left untouched. -/
def execStep (env : Env) (k : Nat) (s : Step) : StepOut :=
  match execStepCore env k s with
  | .error e => .fail e
  | .ok (none, k') => .ok s k'
  | .ok (some r, k') => .ok { s with result := some r } k'

/-- Outcome of the whole step loop over a task's steps.  In both cases
`steps` is the final value of the (mutated-in-place) `task["steps"]`
list: on failure the prefix before the failing step carries its attached
results, the failing step and the rest are untouched. -/
inductive RunOut : Type where
  | ok (steps : List Step) (k' : Nat)
  | fail (steps : List Step) (e : String)
deriving Repr, DecidableEq

/-- The `for step in task["steps"]` loop: steps run strictly in definition
order; the first raised exception aborts the loop. -/
def runSteps (env : Env) (k : Nat) : List Step → RunOut
  | [] => .ok [] k
  | s :: rest =>
    match execStep env k s with
    | .fail e => .fail (s :: rest) e
    | .ok s' k' =>
      match runSteps env k' rest with
      | .ok out k'' => .ok (s' :: out) k''
      | .fail out e => .fail (s' :: out) e

/-- The body of `run_automation`'s `try` block (lines 134-199) for one
task config: acquire the session (launch, new_context, new_page, calls
0-2), navigate to `target_url` when it is present and truthy (line
141-142; `task.get("target_url")` is falsy for `None` and for `""`),
run the steps, close the browser.  Returns the final `task["steps"]`
list together with `none` on success or `some (str e)` for the caught
exception. -/
def runBody (env : Env) (cfg : TaskConfig) : List Step × Option String :=
  match env.launch 0 with
  | .error e => (cfg.steps, some e)
  | .ok _ =>
  match env.newContext 1 with
  | .error e => (cfg.steps, some e)
  | .ok _ =>
  match env.newPage 2 with
  | .error e => (cfg.steps, some e)
  | .ok _ =>
  match
    (match cfg.target_url with
     | some u =>
       if u = "" then Except.ok 3
       else match env.goto 3 u with
         | .error e => Except.error e
         | .ok _ => Except.ok 4
     | none => Except.ok 3 : Except String Nat) with
  | .error e => (cfg.steps, some e)
  | .ok k =>
  match runSteps env k cfg.steps with
  | .fail steps e => (steps, some e)
  | .ok steps k' =>
    match env.closeBrowser k' with
    | .error e => (steps, some e)
    | .ok _ => (steps, none)

/-- `run_automation(task_id)` (lines 129-206) as a state transformer:
look the task up (`task = tasks[task_id]`, line 131 — always present when
reached through `execute_task`), run the body, and record the terminal
entry in `results`.  Because the step dicts are mutated in place, the
stored `tasks[task_id]["steps"]` list is the same (mutated) list that a
successful run stores under `results[task_id]["result"]["steps"]`. -/
def run_automation (env : Env) (st : PluginState) (task_id : String) :
    PluginState :=
  match dlookup st.tasks task_id with
  | none => st
  | some task =>
    let steps' := (runBody env task).1
    let tasks' := dinsert st.tasks task_id { task with steps := steps' }
    match (runBody env task).2 with
    | none =>
      { tasks := tasks',
        results := dinsert st.results task_id
          { result := some ⟨steps'⟩, error := none } }
    | some e =>
      { tasks := tasks',
        results := dinsert st.results task_id
          { result := none, error := some e } }

/-! ## The HTTP endpoint handlers (lines 41-127) -/

/-- The 404 raised by the task-lookup guards (lines 57-60, 67-70, 86-89,
111-114). -/
def notFoundTask (task_id : String) : HTTPError :=
  ⟨404, "Task with id " ++ task_id ++ " not found"⟩

/-- Response dict of `create_task` (line 46). -/
structure CreateResp : Type where
  task_id : String
  status : String
deriving Repr, DecidableEq

/-- `POST /rpa/tasks` (lines 41-46): assign `task_{len(tasks) + 1}`,
store the config, answer `{"task_id": ..., "status": "created"}`.  The
handler has no failure path. -/
def create_task (st : PluginState) (cfg : TaskConfig) :
    PluginState × CreateResp :=
  let task_id := taskKey (st.tasks.length + 1)
  ({ st with tasks := dinsert st.tasks task_id cfg },
   { task_id := task_id, status := "created" })

/-- `GET /rpa/tasks/{task_id}` (lines 53-61): the stored config (merged
with its id) or a 404. -/
def get_task (st : PluginState) (task_id : String) :
    Except HTTPError (String × TaskConfig) :=
  match dlookup st.tasks task_id with
  | none => .error (notFoundTask task_id)
  | some cfg => .ok (task_id, cfg)

/-- `POST /rpa/tasks/{task_id}/execute` (lines 63-80): 404 for an unknown
id; otherwise spawn `run_automation` in the background
(`asyncio.create_task`, line 73 — no synchronous state change) and
immediately answer `running` / progress `0.0`.  The handler consults
nothing but membership in `tasks`: there is no check for an already
active run. -/
def execute_task (st : PluginState) (task_id : String) :
    Except HTTPError TaskStatusResp :=
  if dmem st.tasks task_id then
    .ok { task_id := task_id, status := "running", progress := some 0,
          message := some "Task execution started" }
  else
    .error (notFoundTask task_id)

/-- `GET /rpa/tasks/{task_id}/status` (lines 82-105): 404 for an unknown
id; with a stored result entry, `completed`/`failed` according to the
`"error"` key, progress `1.0`; otherwise `running` with the hard-coded
progress `0.5`. -/
def get_task_status (st : PluginState) (task_id : String) :
    Except HTTPError TaskStatusResp :=
  if dmem st.tasks task_id then
    match dlookup st.results task_id with
    | some entry =>
      if entry.error = none then
        .ok { task_id := task_id, status := "completed", progress := some 1,
              message := some "Task execution completed" }
      else
        .ok { task_id := task_id, status := "failed", progress := some 1,
              message := entry.error }
    | none =>
      .ok { task_id := task_id, status := "running",
            progress := some half,
            message := some "Task is still running" }
  else
    .error (notFoundTask task_id)

/-- `GET /rpa/tasks/{task_id}/result` (lines 107-127): 404 for an unknown
id or when no result entry exists yet; otherwise the stored entry's
`"result"` and `"error"` values with the derived status. -/
def get_task_result (st : PluginState) (task_id : String) :
    Except HTTPError TaskResultResp :=
  if dmem st.tasks task_id then
    match dlookup st.results task_id with
    | none =>
      .error ⟨404, "Results for task " ++ task_id ++
        " not found. Task may still be running."⟩
    | some entry =>
      .ok { task_id := task_id,
            status := if entry.error = none then "completed" else "failed",
            result := entry.result,
            error := entry.error }
  else
    .error (notFoundTask task_id)

/-! ## Reachable states and the poll-visible step relation -/

/-- States of the two module-level dicts reachable from process start:
the only operations that write them are `create_task` and the background
`run_automation` (the GET handlers and `execute_task` leave the state
unchanged). -/
inductive Reachable : PluginState → Prop where
  | init : Reachable initState
  | create {st : PluginState} (cfg : TaskConfig) :
      Reachable st → Reachable (create_task st cfg).1
  | run {st : PluginState} (env : Env) (task_id : String) :
      Reachable st → Reachable (run_automation env st task_id)

/-- One atomic, poll-visible state change of the running system:
a task creation (lines 44-45), the in-place mutation of a registered
task's step dicts while its run is in flight (lines 175/182/190 — any
rewrite of that task's `steps` list, results untouched), or a run's
terminal write into `results` (lines 196-205). -/
inductive SysStep : PluginState → PluginState → Prop where
  | create {st : PluginState} (cfg : TaskConfig) :
      SysStep st (create_task st cfg).1
  | attach {st : PluginState} (task_id : String) (cfg : TaskConfig)
      (steps' : List Step) :
      dlookup st.tasks task_id = some cfg →
      SysStep st { st with
        tasks := dinsert st.tasks task_id { cfg with steps := steps' } }
  | record {st : PluginState} (task_id : String) (entry : StoredEntry) :
      dmem st.tasks task_id →
      SysStep st { st with results := dinsert st.results task_id entry }

/-! ## Lemmas: decimal rendering is injective -/

/-- Value of a little-endian decimal digit list. -/
def valLE : List Nat → Nat
  | [] => 0
  | d :: ds => d + 10 * valLE ds

theorem valLE_decDigitsAux (fuel n : Nat) (h : n ≤ fuel) :
    valLE (decDigitsAux fuel n) = n := by
  induction fuel generalizing n with
  | zero =>
    have hn : n = 0 := by omega
    subst hn
    simp [decDigitsAux, valLE]
  | succ fuel ih =>
    rw [decDigitsAux]
    split
    · simp [valLE]
    · rw [valLE, ih (n / 10) (by omega)]
      omega

theorem valLE_decDigits (n : Nat) : valLE (decDigits n) = n :=
  valLE_decDigitsAux n n le_rfl

theorem decDigits_injective : Function.Injective decDigits := by
  intro a b h
  have := congrArg valLE h
  rwa [valLE_decDigits, valLE_decDigits] at this

theorem decDigitsAux_lt (fuel n : Nat) : ∀ d ∈ decDigitsAux fuel n, d < 10 := by
  induction fuel generalizing n with
  | zero =>
    intro d hd
    simp only [decDigitsAux, List.mem_singleton] at hd
    omega
  | succ fuel ih =>
    intro d hd
    rw [decDigitsAux] at hd
    split at hd
    · simp only [List.mem_singleton] at hd
      omega
    · rcases List.mem_cons.mp hd with h | h
      · omega
      · exact ih (n / 10) d h

theorem decDigits_lt (n : Nat) : ∀ d ∈ decDigits n, d < 10 :=
  decDigitsAux_lt n n

theorem digitChar_toNat : ∀ d < 10, (digitChar d).toNat = 48 + d := by decide

theorem map_digitChar_inj : ∀ xs ys : List Nat, (∀ x ∈ xs, x < 10) →
    (∀ y ∈ ys, y < 10) → xs.map digitChar = ys.map digitChar → xs = ys := by
  intro xs
  induction xs with
  | nil =>
    intro ys _ _ h
    cases ys with
    | nil => rfl
    | cons y ys => simp at h
  | cons x xs ih =>
    intro ys hxs hys h
    cases ys with
    | nil => simp at h
    | cons y ys =>
      simp only [List.map_cons, List.cons.injEq] at h
      have hx : x < 10 := hxs x (List.mem_cons_self x xs)
      have hy : y < 10 := hys y (List.mem_cons_self y ys)
      have hxy : x = y := by
        have := congrArg Char.toNat h.1
        rw [digitChar_toNat x hx, digitChar_toNat y hy] at this
        omega
      have := ih ys (fun a ha => hxs a (List.mem_cons_of_mem x ha))
        (fun a ha => hys a (List.mem_cons_of_mem y ha)) h.2
      rw [hxy, this]

theorem natDecimal_injective : Function.Injective natDecimal := by
  intro a b h
  have hdata := congrArg String.data h
  simp only [natDecimal] at hdata
  have hrev := map_digitChar_inj (decDigits a).reverse (decDigits b).reverse
    (fun x hx => decDigits_lt a x (List.mem_reverse.mp hx))
    (fun y hy => decDigits_lt b y (List.mem_reverse.mp hy)) hdata
  exact decDigits_injective (List.reverse_injective hrev)

theorem taskKey_injective : Function.Injective taskKey := by
  intro a b h
  apply natDecimal_injective
  have hdata := congrArg String.data h
  simp only [taskKey, String.data_append] at hdata
  exact String.ext (List.append_cancel_left hdata)

/-! ## Lemmas: the dict operations -/

theorem dlookup_dinsert_self {α : Type} (d : List (String × α)) (k : String)
    (v : α) : dlookup (dinsert d k v) k = some v := by
  induction d with
  | nil => simp [dinsert, dlookup]
  | cons p rest ih =>
    obtain ⟨k', w⟩ := p
    by_cases h : k' = k <;> simp [dinsert, dlookup, h, ih]

theorem dlookup_dinsert_ne {α : Type} (d : List (String × α))
    (k key : String) (v : α) (h : key ≠ k) :
    dlookup (dinsert d k v) key = dlookup d key := by
  induction d with
  | nil =>
    have hne : ¬(k = key) := fun hh => h hh.symm
    simp [dinsert, dlookup, hne]
  | cons p rest ih =>
    obtain ⟨k', w⟩ := p
    by_cases hk : k' = k
    · subst hk
      have hne : ¬(k' = key) := fun hh => h hh.symm
      simp [dinsert, dlookup, hne]
    · by_cases hkey : k' = key
      · subst hkey
        simp [dinsert, dlookup, hk]
      · simp [dinsert, dlookup, hk, hkey, ih]

theorem dinsert_fresh {α : Type} (d : List (String × α)) (k : String) (v : α)
    (h : dlookup d k = none) : dinsert d k v = d ++ [(k, v)] := by
  induction d with
  | nil => simp [dinsert]
  | cons p rest ih =>
    obtain ⟨k', w⟩ := p
    simp only [dlookup] at h
    by_cases hk : k' = k
    · simp [hk] at h
    · simp only [dinsert, hk, if_false, List.cons_append, List.cons.injEq,
        true_and]
      exact ih (by simpa [hk] using h)

theorem dinsert_keys_of_mem {α : Type} (d : List (String × α)) (k : String)
    (v : α) (h : (dlookup d k).isSome) :
    (dinsert d k v).map Prod.fst = d.map Prod.fst := by
  induction d with
  | nil => simp [dlookup] at h
  | cons p rest ih =>
    obtain ⟨k', w⟩ := p
    by_cases hk : k' = k
    · simp [dinsert, hk]
    · simp only [dlookup, hk, if_false] at h
      simp [dinsert, hk, ih h]

theorem dmem_dinsert {α : Type} (d : List (String × α)) (k key : String)
    (v : α) (h : dmem d key) : dmem (dinsert d k v) key := by
  by_cases hk : key = k
  · subst hk
    simp [dmem, dlookup_dinsert_self]
  · simpa [dmem, dlookup_dinsert_ne d k key v hk] using h

theorem dmem_iff_mem_keys {α : Type} (d : List (String × α)) (key : String) :
    dmem d key = true ↔ key ∈ d.map Prod.fst := by
  induction d with
  | nil => simp [dmem, dlookup]
  | cons p rest ih =>
    obtain ⟨k', w⟩ := p
    simp only [List.map_cons, List.mem_cons]
    by_cases hk : k' = key
    · subst hk
      simp [dmem, dlookup]
    · have hne : ¬(key = k') := fun hh => hk hh.symm
      simp only [dmem, dlookup, hk, if_false]
      have hih : (dlookup rest key).isSome = true ↔ key ∈ rest.map Prod.fst :=
        ih
      rw [hih]
      simp [hne]

/-! ## Characterizations of `run_automation` -/

theorem run_automation_unknown (env : Env) (st : PluginState)
    (task_id : String) (h : dlookup st.tasks task_id = none) :
    run_automation env st task_id = st := by
  unfold run_automation
  rw [h]

theorem run_automation_ok (env : Env) (st : PluginState) (task_id : String)
    (task : TaskConfig) (htask : dlookup st.tasks task_id = some task)
    (hok : (runBody env task).2 = none) :
    run_automation env st task_id =
      { tasks := dinsert st.tasks task_id
          { task with steps := (runBody env task).1 },
        results := dinsert st.results task_id
          { result := some ⟨(runBody env task).1⟩, error := none } } := by
  unfold run_automation
  rw [htask]
  simp only [hok]

theorem run_automation_err (env : Env) (st : PluginState) (task_id : String)
    (task : TaskConfig) (e : String)
    (htask : dlookup st.tasks task_id = some task)
    (herr : (runBody env task).2 = some e) :
    run_automation env st task_id =
      { tasks := dinsert st.tasks task_id
          { task with steps := (runBody env task).1 },
        results := dinsert st.results task_id
          { result := none, error := some e } } := by
  unfold run_automation
  rw [htask]
  simp only [herr]

/-! ## The registry invariant over reachable states -/

/-- The keys of `tasks` are exactly `task_1 .. task_n` in creation order,
and every key of `results` is a key of `tasks`. -/
def StateInv (st : PluginState) : Prop :=
  st.tasks.map Prod.fst =
    (List.range st.tasks.length).map (fun i => taskKey (i + 1)) ∧
  ∀ k, dmem st.results k → dmem st.tasks k

theorem taskKey_succ_fresh (st : PluginState)
    (hkeys : st.tasks.map Prod.fst =
      (List.range st.tasks.length).map (fun i => taskKey (i + 1))) :
    dlookup st.tasks (taskKey (st.tasks.length + 1)) = none := by
  cases hmem : dlookup st.tasks (taskKey (st.tasks.length + 1)) with
  | none => rfl
  | some v =>
    exfalso
    have : dmem st.tasks (taskKey (st.tasks.length + 1)) = true := by
      simp [dmem, hmem]
    rw [dmem_iff_mem_keys, hkeys] at this
    simp only [List.mem_map, List.mem_range] at this
    obtain ⟨i, hi, hkey⟩ := this
    have := taskKey_injective hkey
    omega

theorem stateInv_init : StateInv initState := by
  constructor
  · rfl
  · intro k h
    simp [dmem, dlookup, initState] at h

theorem stateInv_create (st : PluginState) (cfg : TaskConfig)
    (hinv : StateInv st) : StateInv (create_task st cfg).1 := by
  obtain ⟨hkeys, hres⟩ := hinv
  have hfresh := taskKey_succ_fresh st hkeys
  have htasks : (create_task st cfg).1.tasks =
      st.tasks ++ [(taskKey (st.tasks.length + 1), cfg)] := by
    simp only [create_task]
    exact dinsert_fresh st.tasks _ cfg hfresh
  constructor
  · rw [htasks]
    simp only [List.map_append, List.length_append, List.map_cons,
      List.map_nil, List.length_cons, List.length_nil]
    rw [hkeys, List.range_succ]
    simp
  · intro k h
    have : dmem st.tasks k := hres k (by simpa [create_task] using h)
    have hmem : k ∈ st.tasks.map Prod.fst := (dmem_iff_mem_keys _ _).mp this
    rw [dmem_iff_mem_keys, htasks]
    simp only [List.map_append, List.mem_append]
    exact Or.inl hmem

theorem stateInv_run (st : PluginState) (env : Env) (task_id : String)
    (hinv : StateInv st) : StateInv (run_automation env st task_id) := by
  obtain ⟨hkeys, hres⟩ := hinv
  cases htask : dlookup st.tasks task_id with
  | none =>
    rw [run_automation_unknown env st task_id htask]
    exact ⟨hkeys, hres⟩
  | some task =>
    have hmem : (dlookup st.tasks task_id).isSome := by simp [htask]
    have hkeys' : ∀ v : TaskConfig,
        (dinsert st.tasks task_id v).map Prod.fst = st.tasks.map Prod.fst :=
      fun v => dinsert_keys_of_mem st.tasks task_id v hmem
    have hlen : ∀ v : TaskConfig,
        (dinsert st.tasks task_id v).length = st.tasks.length := by
      intro v
      have := congrArg List.length (hkeys' v)
      simpa using this
    have hgen : ∀ (v : TaskConfig) (entry : StoredEntry),
        StateInv { tasks := dinsert st.tasks task_id v,
                   results := dinsert st.results task_id entry } := by
      intro v entry
      refine ⟨?_, ?_⟩
      · rw [hkeys' v, hlen v]
        exact hkeys
      · intro k hk
        by_cases hkid : k = task_id
        · subst hkid
          rw [dmem_iff_mem_keys, hkeys' v, ← dmem_iff_mem_keys]
          simp [dmem, htask]
        · have hk' : dmem st.results k := by
            simpa [dmem, dlookup_dinsert_ne st.results task_id k entry hkid]
              using hk
          exact dmem_dinsert _ _ _ _ (hres k hk')
    cases herr : (runBody env task).2 with
    | none =>
      rw [run_automation_ok env st task_id task htask herr]
      exact hgen _ _
    | some e =>
      rw [run_automation_err env st task_id task e htask herr]
      exact hgen _ _

theorem reachable_stateInv (st : PluginState) (h : Reachable st) :
    StateInv st := by
  induction h with
  | init => exact stateInv_init
  | create cfg _ ih => exact stateInv_create _ cfg ih
  | run env task_id _ ih => exact stateInv_run _ env task_id ih

/-! ## Lemmas: shape of a successful step execution -/

/-- How an executed step relates to the step as registered: the fields
other than `"result"` are untouched; a `"result"` appears only out of the
screenshot or extract branch; the screenshot branch always attaches one. -/
def StepRel (s s' : Step) : Prop :=
  stripResult s' = stripResult s ∧
  (s'.result = s.result ∨
    (s'.result.isSome ∧
      (s.type = some "screenshot" ∨ s.type = some "extract"))) ∧
  (s.type = some "screenshot" → s'.result.isSome)

theorem execStepCore_some_type (env : Env) (k : Nat) (s : Step)
    (r : StepResult) (k₂ : Nat)
    (h : execStepCore env k s = .ok (some r, k₂)) :
    s.type = some "screenshot" ∨ s.type = some "extract" := by
  unfold execStepCore at h
  split at h <;> first
    | (left; assumption)
    | (right; assumption)
    | (exfalso
       repeat' split at h
       all_goals cases h)

theorem execStepCore_screenshot_some (env : Env) (k : Nat) (s : Step)
    (o : Option StepResult) (k₂ : Nat) (ht : s.type = some "screenshot")
    (h : execStepCore env k s = .ok (o, k₂)) : o.isSome := by
  unfold execStepCore at h
  repeat' split at h
  all_goals try simp_all
  all_goals (rw [← h.1]; rfl)

theorem execStep_ok_inv (env : Env) (k : Nat) (s s' : Step) (k' : Nat)
    (h : execStep env k s = .ok s' k') : StepRel s s' := by
  unfold execStep at h
  cases hc : execStepCore env k s with
  | error e => rw [hc] at h; cases h
  | ok p =>
    obtain ⟨o, k₂⟩ := p
    rw [hc] at h
    cases o with
    | none =>
      cases h
      refine ⟨rfl, Or.inl rfl, ?_⟩
      intro ht
      have hcontra := execStepCore_screenshot_some env k s none _ ht hc
      simp at hcontra
    | some r =>
      cases h
      refine ⟨rfl, Or.inr ⟨rfl, ?_⟩, fun _ => rfl⟩
      exact execStepCore_some_type env k s r _ hc

theorem runSteps_ok_forall₂ (env : Env) (k : Nat) (todo out : List Step)
    (k'' : Nat) (h : runSteps env k todo = .ok out k'') :
    List.Forall₂ StepRel todo out := by
  induction todo generalizing k out with
  | nil =>
    unfold runSteps at h
    cases h
    exact .nil
  | cons s rest ih =>
    unfold runSteps at h
    split at h
    · cases h
    · rename_i s' k' he
      split at h
      · rename_i out2 k2 hr
        cases h
        exact .cons (execStep_ok_inv env k s s' k' he) (ih k' out2 hr)
      · cases h

/-- A run whose whole body raised nothing ran its step loop to the end:
the final steps list is the successful output of `runSteps` on the
definition's steps. -/
theorem runBody_ok_inv (env : Env) (cfg : TaskConfig)
    (h : (runBody env cfg).2 = none) :
    ∃ k k', runSteps env k cfg.steps = .ok (runBody env cfg).1 k' := by
  unfold runBody at h ⊢
  cases h0 : env.launch 0 with
  | error e => simp [h0] at h
  | ok u0 =>
  simp only [h0] at h ⊢
  cases h1 : env.newContext 1 with
  | error e => simp [h1] at h
  | ok u1 =>
  simp only [h1] at h ⊢
  cases h2 : env.newPage 2 with
  | error e => simp [h2] at h
  | ok u2 =>
  simp only [h2] at h ⊢
  cases hnav : (match cfg.target_url with
     | some u =>
       if u = "" then Except.ok 3
       else match env.goto 3 u with
         | .error e => Except.error e
         | .ok _ => Except.ok 4
     | none => Except.ok 3 : Except String Nat) with
  | error e => simp [hnav] at h
  | ok k =>
  simp only [hnav] at h ⊢
  cases hs : runSteps env k cfg.steps with
  | fail out e => simp [hs] at h
  | ok out k' =>
  simp only [hs] at h ⊢
  cases hc : env.closeBrowser k' with
  | error e => simp [hc] at h
  | ok u3 =>
  simp only [hc]
  exact ⟨k, k', hs⟩

/-- The shape of a fully successful run's final steps list, relative to
the registered definition (whose steps carry no pre-attached results):
one entry per definition step, in definition order, each unchanged apart
from a possible attached result; a result appears only on screenshot or
extract steps, and on every screenshot step. -/
def ResultsWellFormed (defn out : List Step) : Prop :=
  out.length = defn.length ∧
  ∀ i (hd : i < defn.length) (ho : i < out.length),
    stripResult (out.get ⟨i, ho⟩) = stripResult (defn.get ⟨i, hd⟩) ∧
    ((out.get ⟨i, ho⟩).result.isSome →
      (defn.get ⟨i, hd⟩).type = some "screenshot" ∨
      (defn.get ⟨i, hd⟩).type = some "extract") ∧
    ((defn.get ⟨i, hd⟩).type = some "screenshot" →
      (out.get ⟨i, ho⟩).result.isSome)

/-- The final steps list of a step-loop outcome, successful or not. -/
def outSteps : RunOut → List Step
  | .ok steps _ => steps
  | .fail steps _ => steps

/-- Whatever happens, the step loop returns one entry per input step, in
order, each unchanged apart from its `"result"` field. -/
theorem runSteps_strip (env : Env) (k : Nat) (todo : List Step) :
    List.Forall₂ (fun s s' => stripResult s' = stripResult s) todo
      (outSteps (runSteps env k todo)) := by
  induction todo generalizing k with
  | nil => exact .nil
  | cons s rest ih =>
    cases he : execStep env k s with
    | fail e =>
      have hgoal : runSteps env k (s :: rest) = .fail (s :: rest) e := by
        unfold runSteps
        rw [he]
      rw [hgoal]
      exact .cons rfl (List.forall₂_same.mpr (fun x _ => rfl))
    | ok s' k' =>
      have hrel : stripResult s' = stripResult s :=
        (execStep_ok_inv env k s s' k' he).1
      have hr := ih k'
      cases hrw : runSteps env k' rest with
      | ok out k2 =>
        have hgoal : runSteps env k (s :: rest) = .ok (s' :: out) k2 := by
          unfold runSteps
          simp only [he, hrw]
        rw [hgoal]
        rw [hrw] at hr
        exact .cons hrel hr
      | fail out e =>
        have hgoal : runSteps env k (s :: rest) = .fail (s' :: out) e := by
          unfold runSteps
          simp only [he, hrw]
        rw [hgoal]
        rw [hrw] at hr
        exact .cons hrel hr

/-- The run body returns one entry per definition step, in order, each
unchanged apart from its `"result"` field — also on failing runs. -/
theorem runBody_strip (env : Env) (cfg : TaskConfig) :
    List.Forall₂ (fun s s' => stripResult s' = stripResult s) cfg.steps
      (runBody env cfg).1 := by
  have hrefl : List.Forall₂ (fun s s' : Step => stripResult s' = stripResult s)
      cfg.steps cfg.steps := List.forall₂_same.mpr (fun x _ => rfl)
  unfold runBody
  cases h0 : env.launch 0 with
  | error e => simp only [h0]; exact hrefl
  | ok u0 =>
  simp only [h0]
  cases h1 : env.newContext 1 with
  | error e => simp only [h1]; exact hrefl
  | ok u1 =>
  simp only [h1]
  cases h2 : env.newPage 2 with
  | error e => simp only [h2]; exact hrefl
  | ok u2 =>
  simp only [h2]
  cases hnav : (match cfg.target_url with
     | some u =>
       if u = "" then Except.ok 3
       else match env.goto 3 u with
         | .error e => Except.error e
         | .ok _ => Except.ok 4
     | none => Except.ok 3 : Except String Nat) with
  | error e => simp only [hnav]; exact hrefl
  | ok k =>
  simp only [hnav]
  cases hs : runSteps env k cfg.steps with
  | fail out e =>
    simp only [hs]
    have hres := runSteps_strip env k cfg.steps
    rw [hs] at hres
    exact hres
  | ok out k' =>
    simp only [hs]
    have hres := runSteps_strip env k cfg.steps
    rw [hs] at hres
    cases hc : env.closeBrowser k' with
    | error e => simp only [hc]; exact hres
    | ok u3 => simp only [hc]; exact hres

/-- The `tasks` dict after a run on a registered task: the same dict with
that task's `steps` list replaced by the run's final (mutated) list —
whether the run succeeded or failed. -/
theorem run_automation_tasks (env : Env) (st : PluginState)
    (task_id : String) (cfg : TaskConfig)
    (htask : dlookup st.tasks task_id = some cfg) :
    (run_automation env st task_id).tasks =
      dinsert st.tasks task_id { cfg with steps := (runBody env cfg).1 } := by
  cases herr : (runBody env cfg).2 with
  | none => rw [run_automation_ok env st task_id cfg htask herr]
  | some e => rw [run_automation_err env st task_id cfg e htask herr]

/-! ## Lemmas: the status poll's two shapes, and monotonicity -/

/-- A successful status poll answers in exactly one of two shapes:
`running` at progress `0.5` while no result entry exists, or a terminal
status at progress `1.0` when one does. -/
theorem get_task_status_shape (st : PluginState) (task_id : String)
    (r : TaskStatusResp) (h : get_task_status st task_id = .ok r) :
    (r.progress = some half ∧ r.status = "running" ∧
      dlookup st.results task_id = none) ∨
    (r.progress = some 1 ∧
      (r.status = "completed" ∨ r.status = "failed") ∧
      dmem st.results task_id = true) := by
  unfold get_task_status at h
  split at h
  · split at h
    · rename_i entry hentry
      split at h
      · cases h
        exact Or.inr ⟨rfl, Or.inl rfl, by simp [dmem, hentry]⟩
      · cases h
        exact Or.inr ⟨rfl, Or.inr rfl, by simp [dmem, hentry]⟩
    · rename_i hentry
      cases h
      exact Or.inl ⟨rfl, rfl, hentry⟩
  · cases h

/-- A result entry, once present, survives every poll-visible step. -/
theorem sysStep_results_mono (st st' : PluginState) (task_id : String)
    (h : SysStep st st') (hmem : dmem st.results task_id = true) :
    dmem st'.results task_id = true := by
  cases h with
  | create cfg => exact hmem
  | attach id cfg steps' _ => exact hmem
  | record id entry _ => exact dmem_dinsert _ _ _ _ hmem

theorem sysSteps_results_mono (st st' : PluginState) (task_id : String)
    (h : Relation.ReflTransGen SysStep st st')
    (hmem : dmem st.results task_id = true) :
    dmem st'.results task_id = true := by
  induction h with
  | refl => exact hmem
  | tail _ hstep ih => exact sysStep_results_mono _ _ task_id hstep ih

/-! ## Concrete scenario data used by the witnesses -/

/-- An environment in which every browser call succeeds. -/
def envAllOk : Env where
  launch := fun _ => .ok ()
  newContext := fun _ => .ok ()
  newPage := fun _ => .ok ()
  goto := fun _ _ => .ok ()
  click := fun _ _ => .ok ()
  clickCoords := fun _ _ _ => .ok ()
  fill := fun _ _ _ => .ok ()
  selectOption := fun _ _ _ => .ok ()
  sleep := fun _ _ => .ok ()
  waitForSelector := fun _ _ => .ok ()
  screenshot := fun _ => .ok "aW1hZ2U="
  querySelector := fun _ _ => .ok (some 0)
  textContent := fun _ _ => .ok "hello"
  xpathQuery := fun _ _ => .ok [0, 1]
  closeBrowser := fun _ => .ok ()

/-- The spec's concrete login scenario, plus a screenshot step. -/
def cfgLogin : TaskConfig :=
  { name := "login", description := "login flow",
    steps :=
      [{ type := some "navigate", url := some "https://example.com/login" },
       { type := some "type", selector := some "#user", text := some "bob" },
       { type := some "click", selector := some "#submit" },
       { type := some "screenshot" }] }

/-- The state right after registering the login task: it holds
`task_1`. -/
def stLogin : PluginState := (create_task initState cfgLogin).1

/-- Like `envAllOk`, except that every `page.click` raises. -/
def envClickFails : Env :=
  { envAllOk with click := fun _ _ => .error "Timeout: selector not found" }

/-- A five-step task whose third step is a `click`; under
`envClickFails` steps 1-2 succeed (and attach results) and step 3
raises. -/
def cfgFive : TaskConfig :=
  { name := "five", description := "five steps",
    steps :=
      [{ type := some "screenshot" },
       { type := some "extract", selector := some "#title" },
       { type := some "click", selector := some "#missing" },
       { type := some "wait", time := some 1 },
       { type := some "screenshot" }] }

/-- The state right after registering the five-step task. -/
def stFive : PluginState := (create_task initState cfgFive).1

/-- Like `envAllOk`, except that element queries match nothing. -/
def envNoMatch : Env :=
  { envAllOk with
    querySelector := fun _ _ => .ok none
    xpathQuery := fun _ _ => .ok [] }

/-- An extract step (which will match nothing) followed by a screenshot
step. -/
def cfgExtract : TaskConfig :=
  { name := "extract demo", description := "zero matches",
    steps :=
      [{ type := some "extract", selector := some "#missing" },
       { type := some "screenshot" }] }

/-- The state right after registering the extract task. -/
def stExtract : PluginState := (create_task initState cfgExtract).1

/-- Like `envAllOk`, except that launching the browser raises. -/
def envLaunchFails : Env :=
  { envAllOk with launch := fun _ => .error "browser unavailable" }

/-- `stLogin` after its run raised and the terminal failure entry was
recorded. -/
def stLoginFailed : PluginState :=
  { stLogin with
    results := dinsert stLogin.results "task_1"
      { result := none, error := some "browser unavailable" } }

/-! ## Claim C1 -/

/-- **C1**: for every registered task and every run in which all steps
succeed (the run body raises nothing), the run reaches terminal status
`completed`, and the result endpoint returns the steps with exactly one
attached Step Result per step that defines one — results appear only on
screenshot/extract steps, on every screenshot step, in definition step
order — with no error set. -/
theorem c1_success_run_completed_results
    (env : Env) (st : PluginState) (task_id : String) (cfg : TaskConfig)
    (htask : dlookup st.tasks task_id = some cfg)
    (hok : (runBody env cfg).2 = none)
    (hclean : ∀ s ∈ cfg.steps, s.result = none) :
    get_task_status (run_automation env st task_id) task_id =
      .ok ⟨task_id, "completed", some 1, some "Task execution completed"⟩ ∧
    get_task_result (run_automation env st task_id) task_id =
      .ok ⟨task_id, "completed", some ⟨(runBody env cfg).1⟩, none⟩ ∧
    ResultsWellFormed cfg.steps (runBody env cfg).1 := by
  have hrw := run_automation_ok env st task_id cfg htask hok
  refine ⟨?_, ?_, ?_⟩
  · rw [hrw]
    simp [get_task_status, dmem, dlookup_dinsert_self]
  · rw [hrw]
    simp [get_task_result, dmem, dlookup_dinsert_self]
  · obtain ⟨k, k', hs⟩ := runBody_ok_inv env cfg hok
    have hf := runSteps_ok_forall₂ env k cfg.steps _ k' hs
    rw [List.forall₂_iff_get] at hf
    obtain ⟨hlen, hget⟩ := hf
    refine ⟨hlen.symm, ?_⟩
    intro i hd ho
    obtain ⟨h1, h2, h3⟩ := hget i hd ho
    refine ⟨h1, ?_, h3⟩
    intro hsome
    rcases h2 with h2 | h2
    · exfalso
      have hres := hclean (cfg.steps.get ⟨i, hd⟩) (List.get_mem _ _ _)
      rw [h2, hres] at hsome
      simp at hsome
    · exact h2.2

/-- C1 witness: the concrete login run completes with well-formed
results. -/
theorem c1_witness :
    get_task_status (run_automation envAllOk stLogin "task_1") "task_1" =
      .ok ⟨"task_1", "completed", some 1, some "Task execution completed"⟩ ∧
    get_task_result (run_automation envAllOk stLogin "task_1") "task_1" =
      .ok ⟨"task_1", "completed", some ⟨(runBody envAllOk cfgLogin).1⟩,
        none⟩ ∧
    ResultsWellFormed cfgLogin.steps (runBody envAllOk cfgLogin).1 :=
  c1_success_run_completed_results envAllOk stLogin "task_1" cfgLogin
    (by decide) (by decide) (by decide)

/-! ## Claim C2 -/

/-- **C2 counterexample**: in the five-step run failing at step 3, steps
1-2 did accumulate results (visible in the mutated steps list), the
terminal status is `failed` — but the result endpoint answers with
`result := none`: it does **not** return the Step Results accumulated
before the failure, contrary to the claim. -/
theorem c2_counterexample :
    runBody envClickFails cfgFive =
      ([{ type := some "screenshot",
          result := some (.screenshot "aW1hZ2U=") },
        { type := some "extract", selector := some "#title",
          result := some (.text "hello") },
        { type := some "click", selector := some "#missing" },
        { type := some "wait", time := some 1 },
        { type := some "screenshot" }],
       some "Timeout: selector not found") ∧
    get_task_result (run_automation envClickFails stFive "task_1")
        "task_1" =
      .ok { task_id := "task_1", status := "failed", result := none,
            error := some "Timeout: selector not found" } := by
  decide

/-- **C2 (amended)**: when a step fails after earlier steps succeeded, the
terminal status is `failed` and the stored error message is the failure's
message; but the result endpoint returns `result := none` — the
accumulated Step Results are not part of the result payload; they are
retained only on the stored task definition's (mutated) steps list. -/
theorem c2_failed_run_result_none
    (env : Env) (st : PluginState) (task_id : String) (cfg : TaskConfig)
    (e : String) (htask : dlookup st.tasks task_id = some cfg)
    (herr : (runBody env cfg).2 = some e) :
    get_task_status (run_automation env st task_id) task_id =
      .ok ⟨task_id, "failed", some 1, some e⟩ ∧
    get_task_result (run_automation env st task_id) task_id =
      .ok ⟨task_id, "failed", none, some e⟩ ∧
    dlookup (run_automation env st task_id).tasks task_id =
      some { cfg with steps := (runBody env cfg).1 } := by
  have hrw := run_automation_err env st task_id cfg e htask herr
  refine ⟨?_, ?_, ?_⟩ <;> rw [hrw]
  · simp [get_task_status, dmem, dlookup_dinsert_self]
  · simp [get_task_result, dmem, dlookup_dinsert_self]
  · simp [dlookup_dinsert_self]

/-- C2 witness: the amended claim at the concrete failing five-step
run. -/
theorem c2_witness :
    get_task_status (run_automation envClickFails stFive "task_1")
        "task_1" =
      .ok ⟨"task_1", "failed", some 1,
        some "Timeout: selector not found"⟩ ∧
    get_task_result (run_automation envClickFails stFive "task_1")
        "task_1" =
      .ok ⟨"task_1", "failed", none,
        some "Timeout: selector not found"⟩ ∧
    dlookup (run_automation envClickFails stFive "task_1").tasks
        "task_1" =
      some { cfgFive with steps := (runBody envClickFails cfgFive).1 } :=
  c2_failed_run_result_none envClickFails stFive "task_1" cfgFive
    "Timeout: selector not found" (by decide) (by decide)

/-! ## Claim C3 -/

/-- **C3 counterexample**: `stLogin` holds a task with no terminal entry
— exactly the state in which a previously dispatched run is still
non-terminal — yet `execute` accepts again with `running` instead of
failing with any AlreadyRunning error: the handler has no concurrency
guard at all. -/
theorem c3_counterexample :
    dlookup stLogin.results "task_1" = none ∧
    execute_task stLogin "task_1" =
      .ok ⟨"task_1", "running", some 0, some "Task execution started"⟩ := by
  decide

/-- **C3 (amended)**: `execute` fails — with 404 NotFound — exactly on
identifiers absent from the task registry; on any registered task it
always answers `running` at progress `0.0`, whether or not an earlier run
is still in flight: there is no AlreadyRunning rejection. -/
theorem c3_execute_not_found_only (st : PluginState) (task_id : String) :
    (dmem st.tasks task_id = false →
      execute_task st task_id = .error (notFoundTask task_id)) ∧
    (dmem st.tasks task_id = true →
      execute_task st task_id =
        .ok ⟨task_id, "running", some 0, some "Task execution started"⟩) := by
  constructor <;> intro h <;> simp [execute_task, h]

/-- C3 witness: the amended claim at `stLogin`, on the registered
`task_1` and on an unknown identifier. -/
theorem c3_witness :
    execute_task stLogin "task_1" =
      .ok ⟨"task_1", "running", some 0, some "Task execution started"⟩ ∧
    execute_task stLogin "task_99" =
      .error (notFoundTask "task_99") :=
  ⟨(c3_execute_not_found_only stLogin "task_1").2 (by decide),
   (c3_execute_not_found_only stLogin "task_99").1 (by decide)⟩

/-! ## Claim C4 -/

/-- **C4 counterexample**: registering the login task and immediately
polling status returns `running` with progress `0.5` — not `Pending`. -/
theorem c4_counterexample :
    get_task_status stLogin "task_1" =
      .ok ⟨"task_1", "running", some half,
        some "Task is still running"⟩ ∧
    (Except.toOption (get_task_status stLogin "task_1")).map
        TaskStatusResp.status = some "running" := by
  decide

/-- **C4 (amended)**: on any reachable state, registering a task and
immediately querying its status — before any execute — yields `running`
with the hard-coded progress `0.5`: the handler answers `running`
whenever no result entry exists, and no branch of it ever returns a
pending status, so `Pending` is never observable. -/
theorem c4_status_after_register_running
    (st : PluginState) (cfg : TaskConfig) (hreach : Reachable st) :
    get_task_status (create_task st cfg).1 (create_task st cfg).2.task_id =
      .ok ⟨(create_task st cfg).2.task_id, "running", some half,
        some "Task is still running"⟩ ∧
    (∀ (st' : PluginState) (id : String) (r : TaskStatusResp),
      get_task_status st' id = .ok r → r.status ≠ "pending") := by
  constructor
  · obtain ⟨hkeys, hres⟩ := reachable_stateInv st hreach
    have hfresh := taskKey_succ_fresh st hkeys
    have hresnone :
        dlookup st.results (taskKey (st.tasks.length + 1)) = none := by
      cases hr : dlookup st.results (taskKey (st.tasks.length + 1)) with
      | none => rfl
      | some v =>
        exfalso
        have hmem : dmem st.tasks (taskKey (st.tasks.length + 1)) = true :=
          hres _ (by simp [dmem, hr])
        simp [dmem, hfresh] at hmem
    simp [create_task, get_task_status, dmem, dlookup_dinsert_self,
      hresnone]
  · intro st' id r h
    rcases get_task_status_shape st' id r h with ⟨_, hs, _⟩ | ⟨_, hs, _⟩
    · rw [hs]
      decide
    · rcases hs with hs | hs <;> rw [hs] <;> decide

/-- C4 witness: the amended claim at the empty initial state and the
login config. -/
theorem c4_witness :
    get_task_status (create_task initState cfgLogin).1
        (create_task initState cfgLogin).2.task_id =
      .ok ⟨(create_task initState cfgLogin).2.task_id, "running",
        some half, some "Task is still running"⟩ ∧
    (∀ (st' : PluginState) (id : String) (r : TaskStatusResp),
      get_task_status st' id = .ok r → r.status ≠ "pending") :=
  c4_status_after_register_running initState cfgLogin Reachable.init

/-! ## Claim C5 -/

/-- A config whose name would normalize to `my_login` under the
spec's lower-case/whitespace rule. -/
def cfgNamed : TaskConfig :=
  { name := "My Login", description := "named", steps := [] }

/-- **C5 counterexample**: registering a task named `"My Login"` yields
`task_1` — not a name-derived identifier — and registering the identical
name again succeeds with the fresh identifier `task_2` instead of
failing with AlreadyExists. -/
theorem c5_counterexample :
    (create_task initState cfgNamed).2 = ⟨"task_1", "created"⟩ ∧
    ("task_1" : String) ≠ "my_login" ∧
    (create_task (create_task initState cfgNamed).1 cfgNamed).2 =
      ⟨"task_2", "created"⟩ := by
  decide

/-- **C5 (amended)**: the identifier assigned by registration is derived
from the number of stored tasks — `task_(n+1)` — independently of the
definition's name; a second registration whose name normalizes to an
already-used name also succeeds, with a fresh identifier, and leaves
every previously stored definition unchanged. -/
theorem c5_create_ignores_name
    (st : PluginState) (cfg : TaskConfig) (hreach : Reachable st) :
    (create_task st cfg).2 = ⟨taskKey (st.tasks.length + 1), "created"⟩ ∧
    (∀ k, dmem st.tasks k = true →
      dlookup (create_task st cfg).1.tasks k = dlookup st.tasks k) := by
  obtain ⟨hkeys, _⟩ := reachable_stateInv st hreach
  have hfresh := taskKey_succ_fresh st hkeys
  refine ⟨rfl, ?_⟩
  intro k hk
  have hne : k ≠ taskKey (st.tasks.length + 1) := by
    intro hh
    rw [hh] at hk
    simp [dmem, hfresh] at hk
  exact dlookup_dinsert_ne st.tasks (taskKey (st.tasks.length + 1)) k cfg
    hne

/-- C5 witness: a second task whose name normalizes identically is
accepted on top of `stLogin`, leaving `task_1` untouched. -/
theorem c5_witness :
    (create_task stLogin cfgNamed).2 = ⟨taskKey 2, "created"⟩ ∧
    (∀ k, dmem stLogin.tasks k = true →
      dlookup (create_task stLogin cfgNamed).1.tasks k =
        dlookup stLogin.tasks k) :=
  c5_create_ignores_name stLogin cfgNamed
    (Reachable.create cfgLogin Reachable.init)

/-! ## Claim C6 -/

/-- Prepend an already-executed step to a step-loop outcome. -/
def consStep (s : Step) : RunOut → RunOut
  | .ok out k' => .ok (s :: out) k'
  | .fail out e => .fail (s :: out) e

/-- After a successful head step, the loop is the loop on the tail with
the executed head prepended. -/
theorem runSteps_cons (env : Env) (k : Nat) (s : Step) (rest : List Step)
    (s' : Step) (k' : Nat) (he : execStep env k s = .ok s' k') :
    runSteps env k (s :: rest) = consStep s' (runSteps env k' rest) := by
  have hstep : runSteps env k (s :: rest) =
      match runSteps env k' rest with
      | .ok out k'' => .ok (s' :: out) k''
      | .fail out e => .fail (s' :: out) e := by
    conv_lhs => rw [runSteps]
    rw [he]
  rw [hstep]
  cases runSteps env k' rest <;> rfl

/-- **C6**: an extract step that matches zero elements — the selector
query answers no element, or the xpath query answers an empty list —
does not fail the run: the step raises nothing, keeps no result, and the
loop continues with the remaining steps exactly as if restarted on them,
so the run completes whenever the rest does. -/
theorem c6_extract_zero_matches_continues
    (env : Env) (k : Nat) (s : Step) (rest : List Step)
    (ht : s.type = some "extract")
    (hzero :
      (∃ sel, s.selector = some sel ∧
        env.querySelector k sel = .ok none) ∨
      (s.selector = none ∧
        ∃ xp, s.xpath = some xp ∧ env.xpathQuery k xp = .ok [])) :
    runSteps env k (s :: rest) = consStep s (runSteps env (k + 1) rest) := by
  have hexec : execStep env k s = .ok s (k + 1) := by
    unfold execStep execStepCore
    rcases hzero with ⟨sel, hsel, hq⟩ | ⟨hsel, xp, hxp, hq⟩
    · simp [ht, hsel, hq]
    · simp [ht, hsel, hxp, hq]
  exact runSteps_cons env k s rest s (k + 1) hexec

/-- C6 witness: the concrete zero-match extract run continues and reaches
`completed`. -/
theorem c6_witness :
    runSteps envNoMatch 3
        ({ type := some "extract", selector := some "#missing" } ::
          [{ type := some "screenshot" }]) =
      consStep { type := some "extract", selector := some "#missing" }
        (runSteps envNoMatch 4 [{ type := some "screenshot" }]) ∧
    get_task_status (run_automation envNoMatch stExtract "task_1")
        "task_1" =
      .ok ⟨"task_1", "completed", some 1,
        some "Task execution completed"⟩ :=
  ⟨c6_extract_zero_matches_continues envNoMatch 3
      { type := some "extract", selector := some "#missing" }
      [{ type := some "screenshot" }] (by decide)
      (Or.inl ⟨"#missing", by decide, by decide⟩),
   by decide⟩

/-! ## Claim C7 -/

/-- **C7 counterexample**: after a successful run of the login task, the
stored definition read back differs from the one registered — the
screenshot step now carries an attached result payload, so the stored
definition was mutated by execution. -/
theorem c7_counterexample :
    get_task stLogin "task_1" = .ok ("task_1", cfgLogin) ∧
    get_task (run_automation envAllOk stLogin "task_1") "task_1" ≠
      .ok ("task_1", cfgLogin) ∧
    get_task (run_automation envAllOk stLogin "task_1") "task_1" =
      .ok ("task_1",
        { cfgLogin with steps :=
            [{ type := some "navigate",
               url := some "https://example.com/login" },
             { type := some "type", selector := some "#user",
               text := some "bob" },
             { type := some "click", selector := some "#submit" },
             { type := some "screenshot",
               result := some (.screenshot "aW1hZ2U=") }] }) := by
  decide

/-- **C7 (amended)**: execution can mutate the stored definition, but
only by attaching `"result"` payloads to its steps: after any run the
stored config keeps its name, description, target URL, schedule, and its
steps in order with every non-result field unchanged; other tasks'
stored definitions are untouched. -/
theorem c7_run_mutates_only_step_results
    (env : Env) (st : PluginState) (task_id : String) (cfg : TaskConfig)
    (htask : dlookup st.tasks task_id = some cfg) :
    ∃ cfg',
      dlookup (run_automation env st task_id).tasks task_id = some cfg' ∧
      cfg'.name = cfg.name ∧ cfg'.description = cfg.description ∧
      cfg'.target_url = cfg.target_url ∧ cfg'.schedule = cfg.schedule ∧
      cfg'.steps.length = cfg.steps.length ∧
      (∀ i (h1 : i < cfg.steps.length) (h2 : i < cfg'.steps.length),
        stripResult (cfg'.steps.get ⟨i, h2⟩) =
          stripResult (cfg.steps.get ⟨i, h1⟩)) ∧
      (∀ k, k ≠ task_id →
        dlookup (run_automation env st task_id).tasks k =
          dlookup st.tasks k) := by
  have htp := run_automation_tasks env st task_id cfg htask
  refine ⟨{ cfg with steps := (runBody env cfg).1 }, ?_, rfl, rfl, rfl,
    rfl, ?_, ?_, ?_⟩
  · rw [htp]
    exact dlookup_dinsert_self _ _ _
  · exact (runBody_strip env cfg).length_eq.symm
  · have hf := runBody_strip env cfg
    rw [List.forall₂_iff_get] at hf
    intro i h1 h2
    exact hf.2 i h1 h2
  · intro k hk
    rw [htp]
    exact dlookup_dinsert_ne _ _ _ _ hk

/-- C7 witness: the amended claim at the concrete login run. -/
theorem c7_witness :
    ∃ cfg',
      dlookup (run_automation envAllOk stLogin "task_1").tasks "task_1" =
        some cfg' ∧
      cfg'.name = cfgLogin.name ∧
      cfg'.description = cfgLogin.description ∧
      cfg'.target_url = cfgLogin.target_url ∧
      cfg'.schedule = cfgLogin.schedule ∧
      cfg'.steps.length = cfgLogin.steps.length ∧
      (∀ i (h1 : i < cfgLogin.steps.length)
          (h2 : i < cfg'.steps.length),
        stripResult (cfg'.steps.get ⟨i, h2⟩) =
          stripResult (cfgLogin.steps.get ⟨i, h1⟩)) ∧
      (∀ k, k ≠ "task_1" →
        dlookup (run_automation envAllOk stLogin "task_1").tasks k =
          dlookup stLogin.tasks k) :=
  c7_run_mutates_only_step_results envAllOk stLogin "task_1" cfgLogin
    (by decide)

/-! ## Claim C8 -/

/-- **C8**: every error raised inside a run — session acquisition,
navigation, or any step — is captured at the run boundary:
`run_automation` always records a terminal entry for the task, on any
raised error `e` that entry is the Failed record carrying `str(e)` with
no result, and the response `execute_task` hands its caller is a function
of the pre-run state alone, unaffected by anything the spawned run
does. -/
theorem c8_run_errors_captured
    (env : Env) (st : PluginState) (task_id : String) (cfg : TaskConfig)
    (htask : dlookup st.tasks task_id = some cfg) :
    (∃ entry,
      dlookup (run_automation env st task_id).results task_id =
        some entry ∧
      (entry.error = none ↔ (runBody env cfg).2 = none)) ∧
    (∀ e, (runBody env cfg).2 = some e →
      dlookup (run_automation env st task_id).results task_id =
        some { result := none, error := some e }) ∧
    execute_task st task_id =
      .ok ⟨task_id, "running", some 0, some "Task execution started"⟩ := by
  refine ⟨?_, ?_, ?_⟩
  · cases herr : (runBody env cfg).2 with
    | none =>
      rw [run_automation_ok env st task_id cfg htask herr]
      exact ⟨_, dlookup_dinsert_self _ _ _, by simp [herr]⟩
    | some e =>
      rw [run_automation_err env st task_id cfg e htask herr]
      exact ⟨_, dlookup_dinsert_self _ _ _, by simp [herr]⟩
  · intro e herr
    rw [run_automation_err env st task_id cfg e htask herr]
    exact dlookup_dinsert_self _ _ _
  · have hmem : dmem st.tasks task_id = true := by simp [dmem, htask]
    simp [execute_task, hmem]

/-- C8 witness: the concrete login task under a browser that fails to
launch. -/
theorem c8_witness :
    (∃ entry,
      dlookup (run_automation envLaunchFails stLogin "task_1").results
        "task_1" = some entry ∧
      (entry.error = none ↔ (runBody envLaunchFails cfgLogin).2 = none)) ∧
    (∀ e, (runBody envLaunchFails cfgLogin).2 = some e →
      dlookup (run_automation envLaunchFails stLogin "task_1").results
        "task_1" = some { result := none, error := some e }) ∧
    execute_task stLogin "task_1" =
      .ok ⟨"task_1", "running", some 0, some "Task execution started"⟩ :=
  c8_run_errors_captured envLaunchFails stLogin "task_1" cfgLogin
    (by decide)

/-! ## Claim C9 -/

/-- **C9**: along any sequence of poll-visible system steps, the progress
a successful status poll reports never decreases — it is `0.5` while no
terminal entry exists and `1.0` from the moment one is recorded, and
terminal entries never disappear — and a poll reports progress exactly
`1.0` precisely when it reports a terminal (`completed` or `failed`)
status. -/
theorem c9_progress_monotone
    (st st' : PluginState) (task_id : String)
    (hchain : Relation.ReflTransGen SysStep st st')
    (r r' : TaskStatusResp) (p p' : Rat)
    (h : get_task_status st task_id = .ok r)
    (h' : get_task_status st' task_id = .ok r')
    (hp : r.progress = some p) (hp' : r'.progress = some p') :
    p ≤ p' ∧
    (∀ (st₀ : PluginState) (r₀ : TaskStatusResp),
      get_task_status st₀ task_id = .ok r₀ →
      (r₀.progress = some 1 ↔
        (r₀.status = "completed" ∨ r₀.status = "failed"))) := by
  constructor
  · rcases get_task_status_shape st task_id r h with
      ⟨hp2, _, _⟩ | ⟨hp2, _, hm⟩
    · rw [hp] at hp2
      obtain rfl : p = half := Option.some.inj hp2
      rcases get_task_status_shape st' task_id r' h' with
        ⟨hp2', _, _⟩ | ⟨hp2', _, _⟩
      · rw [hp'] at hp2'
        obtain rfl : p' = half := Option.some.inj hp2'
        exact le_refl half
      · rw [hp'] at hp2'
        obtain rfl : p' = 1 := Option.some.inj hp2'
        decide
    · have hm' := sysSteps_results_mono st st' task_id hchain hm
      rcases get_task_status_shape st' task_id r' h' with
        ⟨_, _, hnone⟩ | ⟨hp2', _, _⟩
      · rw [dmem, hnone] at hm'
        cases hm'
      · rw [hp] at hp2
        obtain rfl : p = 1 := Option.some.inj hp2
        rw [hp'] at hp2'
        obtain rfl : p' = 1 := Option.some.inj hp2'
        exact le_refl 1
  · intro st₀ r₀ h₀
    rcases get_task_status_shape st₀ task_id r₀ h₀ with
      ⟨hp0, hs0, _⟩ | ⟨hp0, hs0, _⟩
    · constructor
      · intro h1
        rw [hp0] at h1
        exact absurd (Option.some.inj h1) (by decide)
      · intro hterm
        rcases hterm with hterm | hterm <;> rw [hs0] at hterm <;>
          exact absurd hterm (by decide)
    · exact ⟨fun _ => hs0, fun _ => hp0⟩

/-- C9 witness: one poll before and one poll after the terminal failure
entry of the login task is recorded; the observed progress rises from
`0.5` to `1.0`. -/
theorem c9_witness :
    half ≤ 1 ∧
    (∀ (st₀ : PluginState) (r₀ : TaskStatusResp),
      get_task_status st₀ "task_1" = .ok r₀ →
      (r₀.progress = some 1 ↔
        (r₀.status = "completed" ∨ r₀.status = "failed"))) :=
  c9_progress_monotone stLogin stLoginFailed "task_1"
    (Relation.ReflTransGen.single
      (SysStep.record "task_1"
        { result := none, error := some "browser unavailable" }
        (by decide)))
    ⟨"task_1", "running", some half, some "Task is still running"⟩
    ⟨"task_1", "failed", some 1, some "browser unavailable"⟩
    half 1 (by decide) (by decide) rfl rfl

/-! ## Claim C10 -/

/-- **C10**: task creation never fails — every create call answers
`created` with identifier `task_(n+1)` where `n` is the number of stored
tasks — and, tasks never being deleted, the fresh identifier differs from
every identifier assigned earlier: on every reachable state the task keys
are exactly `task_1 .. task_n` in creation order and remain pairwise
distinct after the insertion. -/
theorem c10_create_ids_distinct
    (st : PluginState) (hreach : Reachable st) (cfg : TaskConfig) :
    (create_task st cfg).2 =
      ⟨taskKey (st.tasks.length + 1), "created"⟩ ∧
    dmem st.tasks (taskKey (st.tasks.length + 1)) = false ∧
    (create_task st cfg).1.tasks.map Prod.fst =
      (List.range (st.tasks.length + 1)).map (fun i => taskKey (i + 1)) ∧
    ((create_task st cfg).1.tasks.map Prod.fst).Nodup := by
  obtain ⟨hkeys, _⟩ := reachable_stateInv st hreach
  have hfresh := taskKey_succ_fresh st hkeys
  have hkeys' := (stateInv_create st cfg ⟨hkeys, by
    obtain ⟨_, hres⟩ := reachable_stateInv st hreach
    exact hres⟩).1
  have hlen : (create_task st cfg).1.tasks.length = st.tasks.length + 1 := by
    have := congrArg List.length
      (dinsert_fresh st.tasks (taskKey (st.tasks.length + 1)) cfg hfresh)
    simpa [create_task] using this
  refine ⟨rfl, by simp [dmem, hfresh], ?_, ?_⟩
  · rw [hkeys', hlen]
  · rw [hkeys', hlen]
    refine List.Nodup.map ?_ (List.nodup_range _)
    intro a b hab
    have := taskKey_injective hab
    omega

/-- C10 witness: creating on top of the one-task reachable state
`stLogin`. -/
theorem c10_witness :
    (create_task stLogin cfgNamed).2 =
      ⟨taskKey (stLogin.tasks.length + 1), "created"⟩ ∧
    dmem stLogin.tasks (taskKey (stLogin.tasks.length + 1)) = false ∧
    (create_task stLogin cfgNamed).1.tasks.map Prod.fst =
      (List.range (stLogin.tasks.length + 1)).map
        (fun i => taskKey (i + 1)) ∧
    ((create_task stLogin cfgNamed).1.tasks.map Prod.fst).Nodup :=
  c10_create_ids_distinct stLogin
    (Reachable.create cfgLogin Reachable.init) cfgNamed

end RPA
